import Mathlib

set_option maxRecDepth 100000

/-!
Verification of the nix-gcroot-relay repository (a guest agent in
`client/main.py` and a host listener in `server/main.py`) against its
natural-language specification.  The Python code is shallowly embedded:
`pathlib.PurePosixPath` values become `PyPath` (root marker plus normalized
component list, exactly the data `PurePosixPath` compares by), the per-guest
mirror directory becomes an association list from entry name to symlink
target, filesystem symlink reads become lookups in an explicit filesystem
map, and the unbounded `while` loop of the resolver is indexed by fuel
(`none` = the loop has not terminated within the given fuel).
-/

/-- Model of `pathlib.PurePosixPath`: the anchor (`""`, `"/"` or `"//"`)
plus the normalized list of components (empty segments and `"."` dropped,
`".."` kept), which is exactly what `PurePosixPath.__eq__` compares. -/
structure PyPath where
  root : String
  parts : List String
deriving DecidableEq

/-- Split a character list on `'/'` into segments (possibly empty ones). -/
def splitSlash : List Char → List (List Char)
  | [] => [[]]
  | c :: rest =>
    match splitSlash rest with
    | [] => [[]]
    | seg :: segs => if c = '/' then [] :: seg :: segs else (c :: seg) :: segs

/-- The POSIX anchor of a path string: `"//"` for exactly two leading
slashes, `"/"` for one or three-plus, `""` for relative paths. -/
def pyRoot (cs : List Char) : String :=
  if cs.take 1 = ['/'] then
    if cs.take 3 = ['/', '/', '/'] then "/"
    else if cs.take 2 = ['/', '/'] then "//"
    else "/"
  else ""

/-- `pathlib.PurePosixPath(s)`: anchor plus components, with empty
segments and `"."` segments dropped. -/
def parsePath (s : String) : PyPath :=
  { root := pyRoot s.data,
    parts := ((splitSlash s.data).filter
        (fun seg => decide (seg ≠ []) && decide (seg ≠ ['.']))).map
      (fun seg => String.mk seg) }

/-- All suffixes of a list, the list itself first. -/
def tailsList : List String → List (List String)
  | [] => [[]]
  | x :: xs => (x :: xs) :: tailsList xs

/-- `PurePath.parents`: the proper lexical ancestors, nearest first, down
to the anchor (`Path("/")`) or to `Path(".")` for relative paths. -/
def pyParents (p : PyPath) : List PyPath :=
  ((tailsList p.parts.reverse).drop 1).map (fun q => ⟨p.root, q.reverse⟩)

/-- `PurePath.is_relative_to(other)`: `other == self or other in
self.parents` (purely lexical, no symlink or `..` resolution). -/
def is_relative_to (self other : PyPath) : Bool :=
  decide (other = self) || decide (other ∈ pyParents self)

/-- The `/` operator on paths: an absolute right operand replaces the left
one, otherwise the components are appended. -/
def pathJoin (a b : PyPath) : PyPath :=
  if b.root ≠ "" then b else ⟨a.root, a.parts ++ b.parts⟩

/-! ## SHA-1 (`hashlib.sha1(...).hexdigest()` over the UTF-8 bytes) -/

/-- UTF-8 encoding of one scalar value, as `str.encode('utf-8')` does. -/
def utf8Encode (c : Char) : List Nat :=
  let n := c.toNat
  if n < 128 then [n]
  else if n < 2048 then [192 ||| (n >>> 6), 128 ||| (n &&& 63)]
  else if n < 65536 then
    [224 ||| (n >>> 12), 128 ||| ((n >>> 6) &&& 63), 128 ||| (n &&& 63)]
  else
    [240 ||| (n >>> 18), 128 ||| ((n >>> 12) &&& 63),
     128 ||| ((n >>> 6) &&& 63), 128 ||| (n &&& 63)]

/-- 32-bit left rotation. -/
def rotl (n w : Nat) : Nat := ((w <<< n) ||| (w >>> (32 - n))) % 4294967296

/-- SHA-1 padding: `0x80`, zeros up to 56 mod 64, 8-byte big-endian bit
length. -/
def sha1Pad (bs : List Nat) : List Nat :=
  let L := bs.length
  let z := (119 - (L % 64)) % 64
  bs ++ [128] ++ List.replicate z 0 ++
    ([56, 48, 40, 32, 24, 16, 8, 0].map (fun k => ((L * 8) >>> k) % 256))

/-- Split a byte list into 64-byte blocks; the first argument is fuel,
always at least the number of blocks since each step consumes 64 bytes. -/
def chunk64Aux : Nat → List Nat → List (List Nat)
  | 0, _ => []
  | _, [] => []
  | n + 1, b :: bs => ((b :: bs).take 64) :: chunk64Aux n ((b :: bs).drop 64)

def chunk64 (bs : List Nat) : List (List Nat) := chunk64Aux bs.length bs

/-- Big-endian 32-bit words from bytes. -/
def bytesToWords : List Nat → List Nat
  | b0 :: b1 :: b2 :: b3 :: rest =>
    (((b0 * 256 + b1) * 256 + b2) * 256 + b3) :: bytesToWords rest
  | _ => []

/-- Message-schedule expansion, on the reversed word list (head = latest):
`w[i] = rotl1 (w[i-3] xor w[i-8] xor w[i-14] xor w[i-16])`. -/
def extendWords : Nat → List Nat → List Nat
  | 0, rws => rws
  | n + 1, rws =>
    extendWords n
      ((rotl 1 ((rws.getD 2 0) ^^^ (rws.getD 7 0) ^^^
                (rws.getD 13 0) ^^^ (rws.getD 15 0))) :: rws)

structure Sha1State where
  h0 : Nat
  h1 : Nat
  h2 : Nat
  h3 : Nat
  h4 : Nat
deriving DecidableEq

def sha1Init : Sha1State :=
  ⟨0x67452301, 0xEFCDAB89, 0x98BADCFE, 0x10325476, 0xC3D2E1F0⟩

def sha1F (i b c d : Nat) : Nat :=
  if i < 20 then (b &&& c) ||| ((b ^^^ 4294967295) &&& d)
  else if i < 40 then b ^^^ c ^^^ d
  else if i < 60 then (b &&& c) ||| (b &&& d) ||| (c &&& d)
  else b ^^^ c ^^^ d

def sha1K (i : Nat) : Nat :=
  if i < 20 then 0x5A827999
  else if i < 40 then 0x6ED9EBA1
  else if i < 60 then 0x8F1BBCDC
  else 0xCA62C1D6

def sha1Step (acc : Nat × Nat × Nat × Nat × Nat) (iw : Nat × Nat) :
    Nat × Nat × Nat × Nat × Nat :=
  match acc with
  | (a, b, c, d, e) =>
    ((rotl 5 a + sha1F iw.1 b c d + e + sha1K iw.1 + iw.2) % 4294967296,
     a, rotl 30 b, c, d)

def processBlock (st : Sha1State) (block : List Nat) : Sha1State :=
  let ws := (extendWords 64 (bytesToWords block).reverse).reverse
  let r := ((List.range 80).zip ws).foldl sha1Step
    (st.h0, st.h1, st.h2, st.h3, st.h4)
  { h0 := (st.h0 + r.1) % 4294967296,
    h1 := (st.h1 + r.2.1) % 4294967296,
    h2 := (st.h2 + r.2.2.1) % 4294967296,
    h3 := (st.h3 + r.2.2.2.1) % 4294967296,
    h4 := (st.h4 + r.2.2.2.2) % 4294967296 }

def sha1Final (s : String) : Sha1State :=
  (chunk64 (sha1Pad ((s.data.map utf8Encode).flatten))).foldl processBlock sha1Init

def hexDigits : List Char := "0123456789abcdef".data

def hexChar (n : Nat) : Char := hexDigits.getD n 'f'

/-- Eight lowercase hex characters of one 32-bit word, most significant
nibble first. -/
def wordHex (w : Nat) : List Char :=
  [28, 24, 20, 16, 12, 8, 4, 0].map (fun k => hexChar ((w >>> k) % 16))

def sha1HexList (s : String) : List Char :=
  wordHex (sha1Final s).h0 ++ wordHex (sha1Final s).h1 ++
  wordHex (sha1Final s).h2 ++ wordHex (sha1Final s).h3 ++
  wordHex (sha1Final s).h4

/-- `hashlib.sha1(s.encode('utf-8'), usedforsecurity=False).hexdigest()`. -/
def sha1Hex (s : String) : String := String.mk (sha1HexList s)

/-! ## Client (`client/main.py`)

The guest filesystem is an explicit map from path to node.  `readlink`
succeeds exactly on paths mapped to a symlink node; a missing path, a
non-symlink node, or any other `OSError` of the real call (dangling hop,
`ELOOP` from the kernel, ...) is modeled as `none`, which is precisely the
set of situations the Python code converts to `None` via its
`except OSError` handler. -/

inductive GNode where
  | symlink (target : PyPath)
  | file
deriving DecidableEq

abbrev GuestFS := List (PyPath × GNode)

/-- `Path.readlink()`: the immediate link target, or an `OSError`
(modeled as `none`). -/
def readlinkFS (fs : GuestFS) (p : PyPath) : Option PyPath :=
  match (fs.find? (fun e => decide (e.1 = p))).map (fun e => e.2) with
  | some (GNode.symlink t) => some t
  | _ => none

/-- `Path.is_symlink()`. -/
def isSymlinkB (fs : GuestFS) (p : PyPath) : Bool :=
  (readlinkFS fs p).isSome

/-- `resolve_until_store(store_path, p)` from `client/main.py`, indexed by
fuel since the source `while` loop has no termination guarantee of its
own: `none` means the loop has not finished within `fuel` dereferences,
`some none` is the Python `None` (dangling link or other `OSError`), and
`some (some q)` is the returned path. -/
def resolve_until_store (fs : GuestFS) (store_path p : PyPath) : Nat → Option (Option PyPath)
  | 0 => none
  | fuel + 1 =>
    if store_path ∈ pyParents p then some (some p)
    else
      match readlinkFS fs p with
      | none => some none
      | some q => resolve_until_store fs store_path q fuel

/-- The lambda mapped over the scanned roots in `find_roots`:
`resolve_until_store(store_path, l.readlink())`.  The filter preceding it
guarantees `l` is a symlink, so the `none` branch of the `readlink` is
unreachable there. -/
def resolveOfLink (fs : GuestFS) (store_path : PyPath) (fuel : Nat) (l : PyPath) :
    Option (Option PyPath) :=
  match readlinkFS fs l with
  | some t => resolve_until_store fs store_path t fuel
  | none => some none

/-- Insertion into a Python `dict`: a later pair with an existing key
overwrites that key's value in place. -/
def dictInsert (d : List (PyPath × PyPath)) (k v : PyPath) : List (PyPath × PyPath) :=
  if (d.map Prod.fst).contains k then
    d.map (fun e => if e.1 = k then (k, v) else e)
  else d ++ [(k, v)]

/-- The `dict(...)` constructor over a pair sequence. -/
def pyDict (ps : List (PyPath × PyPath)) : List (PyPath × PyPath) :=
  ps.foldl (fun d p => dictInsert d p.1 p.2) []

/-- `find_roots(store_path, gcroots_dir)` from `client/main.py`.  The
walk of the registry directory tree is an OS enumeration, passed in as
`walkFiles`; the function filters it for symlinks, resolves each link's
own immediate target, keeps the valid ones and builds the snapshot dict.
The result is `none` when some resolution does not terminate within
`fuel` (the Python process would simply never finish the scan). -/
def find_roots (fs : GuestFS) (store_path : PyPath) (walkFiles : List PyPath)
    (fuel : Nat) : Option (List (PyPath × PyPath)) :=
  let roots := walkFiles.filter (fun l => isSymlinkB fs l)
  let tgts := roots.map (fun l => (l, resolveOfLink fs store_path fuel l))
  if tgts.all (fun p => p.2.isSome) then
    some (pyDict (tgts.filterMap (fun p =>
      match p.2 with
      | some (some t) => some (p.1, t)
      | _ => none)))
  else none

/-- Lookup in a Python `dict` modeled as an association list. -/
def pyDictLookup (d : List (PyPath × PyPath)) (k : PyPath) : Option PyPath :=
  (d.find? (fun e => decide (e.1 = k))).map (fun e => e.2)

/-- Python `dict` equality (`==` / `!=`): same key-to-value mapping,
insertion order irrelevant. -/
def pyDictEq (a b : List (PyPath × PyPath)) : Bool :=
  (a.all (fun p => decide (pyDictLookup b p.1 = some p.2))) &&
  (b.all (fun p => decide (pyDictLookup a p.1 = some p.2)))

/-- `valid_roots.items() - old_roots.items()`: the pairs of the current
snapshot absent from the previous one (full pair equality). -/
def newRootsList (old_roots valid_roots : List (PyPath × PyPath)) :
    List (PyPath × PyPath) :=
  valid_roots.filter (fun p => !(decide (p ∈ old_roots)))

/-- `old_roots.items() - valid_roots.items()`: the pairs of the previous
snapshot absent from the current one. -/
def removedRootsList (old_roots valid_roots : List (PyPath × PyPath)) :
    List (PyPath × PyPath) :=
  old_roots.filter (fun p => !(decide (p ∈ valid_roots)))

structure UpdateMsg where
  added : List (PyPath × PyPath)
  removed : List (PyPath × PyPath)
deriving DecidableEq

/-- One iteration of the client polling loop, given the remembered
snapshot and the fresh scan: if the dicts differ, emit one update message
with the two set differences and remember the fresh scan; otherwise send
nothing and keep the old snapshot. -/
def pollStep (old_roots valid_roots : List (PyPath × PyPath)) :
    Option UpdateMsg × List (PyPath × PyPath) :=
  if pyDictEq valid_roots old_roots then (none, old_roots)
  else (some ⟨newRootsList old_roots valid_roots,
              removedRootsList old_roots valid_roots⟩, valid_roots)

/-! ## Server (`server/main.py`)

The per-guest mirror directory is an association list from entry name (the
`Path` built from the digest) to the symlink's target path.  `symlink_to`
on an existing name raises `FileExistsError`; a crash mid-list leaves the
directory in its partial state, so `register_roots` returns the directory
reached so far together with an optional error. -/

abbrev MirrorDir := List (PyPath × PyPath)

inductive RegErr where
  | fileExists
deriving DecidableEq

/-- `parse_paths(ps)` from `server/main.py`: each received pair of strings
becomes `(Path(sha1(root).hexdigest()), Path(target))`.  Well-formed wire
pairs are two-element string lists, modeled as `String × String`. -/
def parse_paths (ps : List (String × String)) : List (PyPath × PyPath) :=
  ps.map (fun q => (parsePath (sha1Hex q.1), parsePath q.2))

/-- `register_roots(roots_dir, store_path, roots)` from `server/main.py`:
for each `(r, d)` pair, skip it when `d.is_relative_to(store_path)` is
false (warning only, no filesystem write), otherwise
`(roots_dir / r).symlink_to(d)`, which raises `FileExistsError` when an
entry of that name already exists, aborting the remaining pairs. -/
def register_roots (store_path : PyPath) (roots : List (PyPath × PyPath))
    (dir : MirrorDir) : MirrorDir × Option RegErr :=
  match roots with
  | [] => (dir, none)
  | (r, d) :: rest =>
    if is_relative_to d store_path = false then
      register_roots store_path rest dir
    else if dir.any (fun e => decide (e.1 = r)) then
      (dir, some RegErr.fileExists)
    else
      register_roots store_path rest (dir ++ [(r, d)])

/-- `unregister_roots(roots_dir, roots)` from `server/main.py`:
`(roots_dir / r).unlink(missing_ok=True)` for each root key; absence is
not an error. -/
def unregister_roots (roots : List (PyPath × PyPath)) (dir : MirrorDir) : MirrorDir :=
  match roots with
  | [] => dir
  | (r, _) :: rest => unregister_roots rest (dir.filter (fun e => !(decide (e.1 = r))))

/-- JSON values occurring in protocol messages: strings, arrays of
two-element string arrays, or anything else.  `jstr` and `jother` stand
for values whose iteration as a pair sequence raises before producing a
pair (a string yields length-1 strings whose `pp[1]` raises `IndexError`
at the first element, a non-iterable raises `TypeError` immediately);
JSON arrays that are not pair lists yet still index like pairs (such as
arrays of multi-character strings) are outside this model. -/
inductive JVal where
  | jstr (s : String)
  | jarr (ps : List (String × String))
  | jother
deriving DecidableEq

/-- A decoded JSON object (`json.loads` of one line); keys distinct. -/
abbrev JMsg := List (String × JVal)

/-- One line of the framed stream: either a decodable JSON object or a
line `json.loads` rejects. -/
inductive Frame where
  | junk
  | obj (m : JMsg)

/-- The fatal errors the listener process can die with. -/
inductive LErr where
  | badJson
  | stopIteration
  | keyError (k : String)
  | badUuid
  | typeError
  | fileExists
deriving DecidableEq

def jlookup (m : JMsg) (k : String) : Option JVal :=
  ((m.find? (fun e => decide (e.1 = k))).map (fun e => e.2))

def isHexDigitB (c : Char) : Bool :=
  decide (c ∈ hexDigits) || decide (c ∈ ['A', 'B', 'C', 'D', 'E', 'F'])

/-- Model of `uuid.UUID(s)` for its canonical hex inputs: hyphens are
dropped and exactly 32 hex digits must remain, else `ValueError`. -/
def uuidParse (s : String) : Option (List Char) :=
  let t := s.data.filter (fun c => decide (c ≠ '-'))
  if t.length = 32 && t.all isHexDigitB then some (t.map Char.toLower) else none

/-- The accesses performed on the first message before any filesystem
state is touched: `UUID(initial["id"])` and the `initial["roots"]`
lookup.  A missing key is a fatal `KeyError`, a non-string id a fatal
`TypeError` inside `UUID`, a malformed id a fatal `ValueError`.  The
`roots` value is returned unexamined: `parse_paths` is a lazy generator,
so its elements are only inspected when `register_roots` iterates it,
after `mkdir` and the clearing loop.  The `"type"` field is never
consulted. -/
def listenerInitParse (m : JMsg) : Except LErr JVal :=
  match jlookup m "id" with
  | none => Except.error (LErr.keyError "id")
  | some (JVal.jstr s) =>
    match uuidParse s with
    | none => Except.error LErr.badUuid
    | some _ =>
      match jlookup m "roots" with
      | none => Except.error (LErr.keyError "roots")
      | some v => Except.ok v
  | some _ => Except.error LErr.typeError

/-- Processing of one update message in the listener loop:
`unregister_roots(vm_gcroots, parse_paths(update["removed"]))` strictly
before `register_roots(vm_gcroots, store_path, parse_paths(update["added"]))`;
a missing key is a fatal `KeyError` raised at its own access point. -/
def listenerStep (store_path : PyPath) (dir : MirrorDir) (fr : Frame) :
    MirrorDir × Option LErr :=
  match fr with
  | Frame.junk => (dir, some LErr.badJson)
  | Frame.obj m =>
    match jlookup m "removed" with
    | none => (dir, some (LErr.keyError "removed"))
    | some (JVal.jarr rem) =>
      let dir2 := unregister_roots (parse_paths rem) dir
      match jlookup m "added" with
      | none => (dir2, some (LErr.keyError "added"))
      | some (JVal.jarr add) =>
        match register_roots store_path (parse_paths add) dir2 with
        | (dir3, some _) => (dir3, some LErr.fileExists)
        | (dir3, none) => (dir3, none)
      | some _ => (dir2, some LErr.typeError)
    | some _ => (dir, some LErr.typeError)

/-- The `for update in js` loop: frames are processed in order until the
stream ends (clean exit) or an exception kills the process, leaving the
directory state reached at that point. -/
def listenerLoop (store_path : PyPath) (dir : MirrorDir) :
    List Frame → MirrorDir × Option LErr
  | [] => (dir, none)
  | fr :: rest =>
    match listenerStep store_path dir fr with
    | (d2, some e) => (d2, some e)
    | (d2, none) => listenerLoop store_path d2 rest

/-- The code after the update loop (`sd.notify`, logging): it performs no
filesystem operation at all. -/
def shutdownHook (dir : MirrorDir) : MirrorDir := dir

/-- The listener after the pre-`mkdir` accesses succeeded: make the
per-guest directory, clear any pre-existing entries (hence the initial
directory `[]`), then iterate the lazy `parse_paths` generator inside
`register_roots`.  A `roots` value that is not a pair list raises at its
first element there — after the directory was created and cleared, but
before any entry of the message was written; a pair list is registered
and the update loop and shutdown code follow. -/
def listenerRunAfterInit (store_path : PyPath) (rootsVal : JVal)
    (frames : List Frame) : Option MirrorDir × Option LErr :=
  match rootsVal with
  | JVal.jarr ps =>
    match register_roots store_path (parse_paths ps) [] with
    | (d1, some _) => (some d1, some LErr.fileExists)
    | (d1, none) =>
      match listenerLoop store_path d1 frames with
      | (d2, some e) => (some d2, some e)
      | (d2, none) => (some (shutdownHook d2), none)
  | _ => (some [], some LErr.typeError)

/-- `main(store_path, gcroots_dir)` of `server/main.py`, for one guest
stream.  `pre` is the pre-existing per-guest mirror directory (`none` if
it does not exist yet); it is returned unchanged whenever the process
dies before `vm_gcroots.mkdir(...)`.  An empty stream makes `next(js)`
raise `StopIteration`. -/
def listenerRun (store_path : PyPath) (pre : Option MirrorDir)
    (frames : List Frame) : Option MirrorDir × Option LErr :=
  match frames with
  | [] => (pre, some LErr.stopIteration)
  | Frame.junk :: _ => (pre, some LErr.badJson)
  | Frame.obj m :: rest =>
    match listenerInitParse m with
    | Except.error e => (pre, some e)
    | Except.ok v => listenerRunAfterInit store_path v rest

/-- The default `--store` argument of both programs. -/
def defaultStorePath : PyPath := parsePath "/nix/store"

/-! ## Structural facts about the digest-based entry names -/

lemma hexChar_mem (n : Nat) : hexChar n ∈ hexDigits := by
  unfold hexChar
  by_cases h : n < hexDigits.length
  · rw [List.getD_eq_getElem _ _ h]
    exact List.getElem_mem h
  · rw [List.getD_eq_default _ _ (Nat.le_of_not_lt h)]
    decide

lemma wordHex_mem {w : Nat} {c : Char} (hc : c ∈ wordHex w) : c ∈ hexDigits := by
  unfold wordHex at hc
  rcases List.mem_map.mp hc with ⟨k, _, rfl⟩
  exact hexChar_mem _

lemma wordHex_length (w : Nat) : (wordHex w).length = 8 := rfl

lemma sha1HexList_mem {s : String} {c : Char} (hc : c ∈ sha1HexList s) :
    c ∈ hexDigits := by
  unfold sha1HexList at hc
  simp only [List.mem_append] at hc
  rcases hc with ((((h | h) | h) | h) | h) <;> exact wordHex_mem h

lemma sha1HexList_length (s : String) : (sha1HexList s).length = 40 := by
  unfold sha1HexList
  simp [List.length_append, wordHex_length]

lemma sha1Hex_length (s : String) : (sha1Hex s).length = 40 :=
  sha1HexList_length s

lemma hexDigit_ne_slash {c : Char} (hc : c ∈ hexDigits) : c ≠ '/' := by
  have hall : hexDigits.all (fun x => decide (x ≠ '/')) = true := by decide
  simpa using List.all_eq_true.mp hall c hc

lemma splitSlash_of_no_slash {cs : List Char} (h : ∀ c ∈ cs, c ≠ '/') :
    splitSlash cs = [cs] := by
  induction cs with
  | nil => rfl
  | cons c rest ih =>
    have hrest : splitSlash rest = [rest] := ih (fun x hx => h x (List.mem_cons_of_mem _ hx))
    unfold splitSlash
    rw [hrest]
    simp [h c (List.mem_cons_self _ _)]

lemma pyRoot_of_no_slash {cs : List Char} (h : ∀ c ∈ cs, c ≠ '/') :
    pyRoot cs = "" := by
  cases cs with
  | nil => rfl
  | cons c rest =>
    unfold pyRoot
    have hc : c ≠ '/' := h c (List.mem_cons_self _ _)
    simp [List.take, hc]

lemma parsePath_of_hex_chars {t : String} (hhex : ∀ c ∈ t.data, c ∈ hexDigits)
    (hlen : t.data.length = 40) : parsePath t = ⟨"", [t]⟩ := by
  have hns : ∀ c ∈ t.data, c ≠ '/' := fun c hc => hexDigit_ne_slash (hhex c hc)
  have hne : t.data ≠ [] := by
    intro h0
    rw [h0] at hlen
    exact absurd hlen (by decide)
  have hnd : t.data ≠ ['.'] := by
    intro h0
    rw [h0] at hlen
    exact absurd hlen (by decide)
  unfold parsePath
  rw [pyRoot_of_no_slash hns, splitSlash_of_no_slash hns]
  have hcond : (decide (t.data ≠ []) && decide (t.data ≠ ['.'])) = true := by
    simp [hne, hnd]
  rw [List.filter_cons, hcond]
  simp only [if_true, List.filter_nil, List.map]

lemma parsePath_sha1Hex (s : String) : parsePath (sha1Hex s) = ⟨"", [sha1Hex s]⟩ :=
  parsePath_of_hex_chars (fun _ hc => sha1HexList_mem hc) (sha1HexList_length s)

/-! ## Behavior of `register_roots` -/

lemma register_roots_filter (pairs : List (PyPath × PyPath)) :
    ∀ (store : PyPath) (dir : MirrorDir),
    register_roots store pairs dir =
      register_roots store (pairs.filter (fun rd => is_relative_to rd.2 store)) dir := by
  induction pairs with
  | nil => intro store dir; rfl
  | cons hd tl ih =>
    intro store dir
    obtain ⟨r, d⟩ := hd
    by_cases h : is_relative_to d store = false
    · have h1 : register_roots store ((r, d) :: tl) dir = register_roots store tl dir := by
        simp [register_roots, h]
      have h2 : List.filter (fun rd => is_relative_to rd.2 store) ((r, d) :: tl)
          = List.filter (fun rd => is_relative_to rd.2 store) tl := by
        simp [List.filter_cons, h]
      rw [h1, h2]
      exact ih store dir
    · have h' : is_relative_to d store = true := by
        revert h; cases is_relative_to d store <;> simp
      have h2 : List.filter (fun rd => is_relative_to rd.2 store) ((r, d) :: tl)
          = (r, d) :: List.filter (fun rd => is_relative_to rd.2 store) tl := by
        simp [List.filter_cons, h']
      rw [h2]
      by_cases hex : dir.any (fun e => decide (e.1 = r)) = true
      · rw [show register_roots store ((r, d) :: tl) dir = (dir, some RegErr.fileExists)
            from by simp [register_roots, h', hex],
          show register_roots store
              ((r, d) :: List.filter (fun rd => is_relative_to rd.2 store) tl) dir
              = (dir, some RegErr.fileExists)
            from by simp [register_roots, h', hex]]
      · have hex' : dir.any (fun e => decide (e.1 = r)) = false := by
          revert hex; cases dir.any (fun e => decide (e.1 = r)) <;> simp
        rw [show register_roots store ((r, d) :: tl) dir
              = register_roots store tl (dir ++ [(r, d)])
            from by simp [register_roots, h', hex'],
          show register_roots store
              ((r, d) :: List.filter (fun rd => is_relative_to rd.2 store) tl) dir
              = register_roots store (List.filter (fun rd => is_relative_to rd.2 store) tl)
                  (dir ++ [(r, d)])
            from by simp [register_roots, h', hex']]
        exact ih store (dir ++ [(r, d)])

lemma register_roots_mem (pairs : List (PyPath × PyPath)) :
    ∀ (store : PyPath) (dir : MirrorDir) (kv : PyPath × PyPath),
    kv ∈ (register_roots store pairs dir).1 →
    kv ∈ dir ∨ (kv ∈ pairs ∧ is_relative_to kv.2 store = true) := by
  induction pairs with
  | nil => intro store dir kv hkv; exact Or.inl hkv
  | cons hd tl ih =>
    intro store dir kv hkv
    obtain ⟨r, d⟩ := hd
    by_cases h : is_relative_to d store = false
    · rw [show register_roots store ((r, d) :: tl) dir = register_roots store tl dir
          from by simp [register_roots, h]] at hkv
      rcases ih store dir kv hkv with h1 | ⟨h2, h3⟩
      · exact Or.inl h1
      · exact Or.inr ⟨List.mem_cons_of_mem _ h2, h3⟩
    · have h' : is_relative_to d store = true := by
        revert h; cases is_relative_to d store <;> simp
      by_cases hex : dir.any (fun e => decide (e.1 = r)) = true
      · rw [show register_roots store ((r, d) :: tl) dir = (dir, some RegErr.fileExists)
            from by simp [register_roots, h', hex]] at hkv
        exact Or.inl hkv
      · have hex' : dir.any (fun e => decide (e.1 = r)) = false := by
          revert hex; cases dir.any (fun e => decide (e.1 = r)) <;> simp
        rw [show register_roots store ((r, d) :: tl) dir
              = register_roots store tl (dir ++ [(r, d)])
            from by simp [register_roots, h', hex']] at hkv
        rcases ih store (dir ++ [(r, d)]) kv hkv with h1 | ⟨h2, h3⟩
        · rcases List.mem_append.mp h1 with h1a | h1b
          · exact Or.inl h1a
          · have : kv = (r, d) := by simpa using h1b
            subst this
            exact Or.inr ⟨List.mem_cons_self _ _, h'⟩
        · exact Or.inr ⟨List.mem_cons_of_mem _ h2, h3⟩

/-- Lexical resolution of `..` components against their preceding
components, left to right (the meaning of `..` on a real walk through
plain directories such as `/nix/store` and `/nix`); a `..` at the top is
dropped, as it is at the root of a filesystem. -/
def normParts (acc : List String) : List String → List String
  | [] => acc.reverse
  | c :: rest =>
    if c = ".." then normParts acc.tail rest else normParts (c :: acc) rest

/-- The spec's notion, stated in its words for comparison with the
code's check: a StoreTarget is "an absolute filesystem path that is a
descendant of the configured store root".  Since `..` climbs to the
parent directory, descendance resolves `..` components before requiring
the store root among the ancestors; the code instead applies
`Path.is_relative_to`, which treats `..` as an ordinary name. -/
def specDescendant (storeRoot p : PyPath) : Bool :=
  is_relative_to ⟨p.root, normParts [] p.parts⟩ storeRoot

/-- C1: the code fails the claim's security invariant at this failing
input.  With store root `/nix/store`, a guest-sent pair whose target is
`/nix/store/../../etc/shadow` passes the code's lexical
`Path.is_relative_to` check (which keeps `..` as an ordinary component),
so `register_roots` performs a filesystem write and creates a mirror
entry for it — although the target is not a descendant of the store
root: its `..` components climb to `/etc/shadow`.  An honest target
such as `/nix/store/xxx-a` is a descendant under both readings. -/
theorem c1_descendant_check_traversal_bug :
    is_relative_to (parsePath "/nix/store/../../etc/shadow") defaultStorePath = true
    ∧ specDescendant defaultStorePath (parsePath "/nix/store/../../etc/shadow") = false
    ∧ normParts [] (parsePath "/nix/store/../../etc/shadow").parts = ["etc", "shadow"]
    ∧ register_roots defaultStorePath
        (parse_paths [("/gcroots/evil", "/nix/store/../../etc/shadow")]) []
      = ([(parsePath (sha1Hex "/gcroots/evil"),
           parsePath "/nix/store/../../etc/shadow")], none)
    ∧ specDescendant defaultStorePath (parsePath "/nix/store/xxx-a") = true := by
  refine ⟨by decide, by decide, by decide, by decide, by decide⟩

/-- C2 counterexample: with a mirror entry named `digest("/gcroots/a")`
already present, registering the same root again does not replace the
entry — `symlink_to` raises `FileExistsError`, the directory keeps the
old target and the result is not the overwrite the claim describes. -/
def c2Dir : MirrorDir :=
  [(parsePath (sha1Hex "/gcroots/a"), parsePath "/nix/store/xxx-a")]

theorem c2_no_atomic_replace_counterexample :
    register_roots defaultStorePath (parse_paths [("/gcroots/a", "/nix/store/yyy-a")]) c2Dir
      = (c2Dir, some RegErr.fileExists)
    ∧ register_roots defaultStorePath (parse_paths [("/gcroots/a", "/nix/store/yyy-a")]) c2Dir
      ≠ ([(parsePath (sha1Hex "/gcroots/a"), parsePath "/nix/store/yyy-a")], none) := by
  constructor
  · decide
  · decide

/-- C2 amended: for an accepted pair, `register_roots` creates the symlink
named `digest(root)` when no entry of that name exists; when an entry of
that name already exists it fails with `FileExistsError` (leaving the
directory unchanged and abandoning the remaining pairs) instead of
atomically replacing the entry. -/
theorem c2_register_create_or_fail (store : PyPath) (dir : MirrorDir)
    (nm tgt : PyPath) (h : is_relative_to tgt store = true) :
    (dir.any (fun e => decide (e.1 = nm)) = false →
      register_roots store [(nm, tgt)] dir = (dir ++ [(nm, tgt)], none))
    ∧ (dir.any (fun e => decide (e.1 = nm)) = true →
      register_roots store [(nm, tgt)] dir = (dir, some RegErr.fileExists)) := by
  constructor <;> intro hex <;> simp [register_roots, h, hex]

theorem c2_register_create_or_fail_witness :
    register_roots defaultStorePath
        [(parsePath (sha1Hex "/gcroots/a"), parsePath "/nix/store/yyy-a")] []
      = ([] ++ [(parsePath (sha1Hex "/gcroots/a"), parsePath "/nix/store/yyy-a")], none)
    ∧ register_roots defaultStorePath
        [(parsePath (sha1Hex "/gcroots/a"), parsePath "/nix/store/yyy-a")] c2Dir
      = (c2Dir, some RegErr.fileExists) :=
  ⟨(c2_register_create_or_fail defaultStorePath []
      (parsePath (sha1Hex "/gcroots/a")) (parsePath "/nix/store/yyy-a")
      (by decide)).1 (by decide),
   (c2_register_create_or_fail defaultStorePath c2Dir
      (parsePath (sha1Hex "/gcroots/a")) (parsePath "/nix/store/yyy-a")
      (by decide)).2 (by decide)⟩

/-! ## Resolver and scanner -/

lemma resolve_succ (fs : GuestFS) (store p : PyPath) (fuel : Nat) :
    resolve_until_store fs store p (fuel + 1) =
      if store ∈ pyParents p then some (some p)
      else
        match readlinkFS fs p with
        | none => some none
        | some q => resolve_until_store fs store q fuel := rfl

lemma resolve_mem_parents (fs : GuestFS) (store : PyPath) :
    ∀ (fuel : Nat) (p r : PyPath),
    resolve_until_store fs store p fuel = some (some r) → store ∈ pyParents r := by
  intro fuel
  induction fuel with
  | zero =>
    intro p r h
    exact absurd h (by simp [resolve_until_store])
  | succ n ih =>
    intro p r h
    unfold resolve_until_store at h
    by_cases hp : store ∈ pyParents p
    · rw [if_pos hp] at h
      obtain rfl : p = r := by simpa using h
      exact hp
    · rw [if_neg hp] at h
      cases hq : readlinkFS fs p with
      | none => rw [hq] at h; exact absurd h (by simp)
      | some q => rw [hq] at h; exact ih q r h

/-- C4: the resolver returns the first path of the dereference chain whose
lexical ancestry contains the store root — a path already under the store
root is returned unchanged, one dereference step is taken otherwise, and
any `OSError` of the dereference step (dangling hop, including the final
one, or an I/O failure such as the kernel's link-loop limit) yields
`None`; moreover any returned path really lies under the store root. -/
theorem c4_resolver_characterization (fs : GuestFS) (store p q : PyPath) (fuel : Nat) :
    (store ∈ pyParents p →
      resolve_until_store fs store p (fuel + 1) = some (some p))
    ∧ (store ∉ pyParents p → readlinkFS fs p = none →
      resolve_until_store fs store p (fuel + 1) = some none)
    ∧ (store ∉ pyParents p → readlinkFS fs p = some q →
      resolve_until_store fs store p (fuel + 1) = resolve_until_store fs store q fuel)
    ∧ (∀ r, resolve_until_store fs store p fuel = some (some r) → store ∈ pyParents r) := by
  refine ⟨?_, ?_, ?_, fun r h => resolve_mem_parents fs store fuel p r h⟩
  · intro hp
    rw [resolve_succ, if_pos hp]
  · intro hp hn
    rw [resolve_succ, if_neg hp, hn]
  · intro hp hq
    rw [resolve_succ, if_neg hp, hq]

def c4FS : GuestFS :=
  [(parsePath "/gcroots/a", GNode.symlink (parsePath "/gcroots/b")),
   (parsePath "/gcroots/b", GNode.symlink (parsePath "/nix/store/xxx-a")),
   (parsePath "/gcroots/c", GNode.symlink (parsePath "/gcroots/dead"))]

theorem c4_resolver_characterization_witness :
    resolve_until_store c4FS defaultStorePath (parsePath "/nix/store/xxx-a") 1
      = some (some (parsePath "/nix/store/xxx-a"))
    ∧ resolve_until_store c4FS defaultStorePath (parsePath "/gcroots/a") 2
      = resolve_until_store c4FS defaultStorePath (parsePath "/gcroots/b") 1
    ∧ resolve_until_store c4FS defaultStorePath (parsePath "/gcroots/dead") 1
      = some none :=
  ⟨(c4_resolver_characterization c4FS defaultStorePath
      (parsePath "/nix/store/xxx-a") (parsePath "/nix/store/xxx-a") 0).1 (by decide),
   (c4_resolver_characterization c4FS defaultStorePath
      (parsePath "/gcroots/a") (parsePath "/gcroots/b") 1).2.2.1 (by decide) (by decide),
   (c4_resolver_characterization c4FS defaultStorePath
      (parsePath "/gcroots/dead") (parsePath "/gcroots/dead") 0).2.1
      (by decide) (by decide)⟩

lemma mem_dictInsert {d : List (PyPath × PyPath)} {k v : PyPath} {kv : PyPath × PyPath}
    (h : kv ∈ dictInsert d k v) : kv ∈ d ∨ kv = (k, v) := by
  unfold dictInsert at h
  by_cases hk : (d.map Prod.fst).contains k = true
  · rw [if_pos hk] at h
    rcases List.mem_map.mp h with ⟨e, he, hfe⟩
    by_cases h1 : e.1 = k
    · right
      rw [← hfe]
      simp [h1]
    · left
      rw [← hfe]
      simpa [h1] using he
  · rw [if_neg hk] at h
    rcases List.mem_append.mp h with h1 | h2
    · exact Or.inl h1
    · right
      simpa using h2

lemma mem_foldl_dictInsert (ps : List (PyPath × PyPath)) :
    ∀ (acc : List (PyPath × PyPath)) (kv : PyPath × PyPath),
    kv ∈ ps.foldl (fun d p => dictInsert d p.1 p.2) acc → kv ∈ acc ∨ kv ∈ ps := by
  induction ps with
  | nil => intro acc kv h; exact Or.inl h
  | cons p tl ih =>
    intro acc kv h
    simp only [List.foldl] at h
    rcases ih (dictInsert acc p.1 p.2) kv h with h0 | h1
    · rcases mem_dictInsert h0 with h2 | h3
      · exact Or.inl h2
      · right
        simp [h3]
    · exact Or.inr (List.mem_cons_of_mem _ h1)

lemma mem_pyDict {ps : List (PyPath × PyPath)} {kv : PyPath × PyPath}
    (h : kv ∈ pyDict ps) : kv ∈ ps := by
  rcases mem_foldl_dictInsert ps [] kv h with h0 | h1
  · exact absurd h0 (by simp)
  · exact h1

/-- C5: every entry of a snapshot produced by `find_roots` is a symlink of
the scanned registry whose immediate target the resolver takes to a valid
store target lying under the store root; entries whose resolution is
`None` never enter the snapshot. -/
theorem c5_snapshot_only_valid (fs : GuestFS) (store : PyPath)
    (walkFiles : List PyPath) (fuel : Nat) (d : List (PyPath × PyPath))
    (r t : PyPath) (hd : find_roots fs store walkFiles fuel = some d)
    (hmem : (r, t) ∈ d) :
    isSymlinkB fs r = true
    ∧ ∃ q, readlinkFS fs r = some q
        ∧ resolve_until_store fs store q fuel = some (some t)
        ∧ store ∈ pyParents t := by
  simp only [find_roots] at hd
  split at hd
  case isFalse => exact Option.noConfusion hd
  case isTrue hall =>
    obtain rfl : pyDict (((walkFiles.filter (fun l => isSymlinkB fs l)).map
        (fun l => (l, resolveOfLink fs store fuel l))).filterMap (fun p =>
          match p.2 with
          | some (some t) => some (p.1, t)
          | _ => none)) = d := by simpa using hd
    have h1 := mem_pyDict hmem
    rcases List.mem_filterMap.mp h1 with ⟨a, ha, hfa⟩
    rcases List.mem_map.mp ha with ⟨l, hl, rfl⟩
    rcases List.mem_filter.mp hl with ⟨_, hsym⟩
    cases hres : resolveOfLink fs store fuel l with
    | none => rw [hres] at hfa; exact Option.noConfusion hfa
    | some o =>
      cases o with
      | none => rw [hres] at hfa; simp at hfa
      | some t0 =>
        rw [hres] at hfa
        simp only [Option.some.injEq, Prod.mk.injEq] at hfa
        obtain ⟨hl1, ht1⟩ := hfa
        have main : isSymlinkB fs l = true
            ∧ ∃ q, readlinkFS fs l = some q
                ∧ resolve_until_store fs store q fuel = some (some t0)
                ∧ store ∈ pyParents t0 := by
          refine ⟨hsym, ?_⟩
          unfold resolveOfLink at hres
          cases hq : readlinkFS fs l with
          | none =>
            rw [hq] at hres
            exact absurd hres (by simp)
          | some q =>
            rw [hq] at hres
            exact ⟨q, rfl, hres, resolve_mem_parents fs store fuel q t0 hres⟩
        rw [← hl1, ← ht1]
        exact main

def c5FS : GuestFS :=
  [(parsePath "/gcroots/a", GNode.symlink (parsePath "/gcroots/b")),
   (parsePath "/gcroots/b", GNode.symlink (parsePath "/nix/store/xxx-a")),
   (parsePath "/gcroots/c", GNode.symlink (parsePath "/gcroots/dead")),
   (parsePath "/gcroots/f", GNode.file)]

def c5Walk : List PyPath :=
  [parsePath "/gcroots/a", parsePath "/gcroots/c", parsePath "/gcroots/f"]

theorem c5_snapshot_only_valid_witness :
    isSymlinkB c5FS (parsePath "/gcroots/a") = true
    ∧ ∃ q, readlinkFS c5FS (parsePath "/gcroots/a") = some q
        ∧ resolve_until_store c5FS defaultStorePath q 2
          = some (some (parsePath "/nix/store/xxx-a"))
        ∧ defaultStorePath ∈ pyParents (parsePath "/nix/store/xxx-a") :=
  c5_snapshot_only_valid c5FS defaultStorePath c5Walk 2
    [(parsePath "/gcroots/a", parsePath "/nix/store/xxx-a")]
    (parsePath "/gcroots/a") (parsePath "/nix/store/xxx-a")
    (by decide) (by decide)

/-! ## Dict equality and the polling loop -/

lemma pyDictLookup_iff_mem {d : List (PyPath × PyPath)}
    (hd : (d.map Prod.fst).Nodup) {k v : PyPath} :
    pyDictLookup d k = some v ↔ (k, v) ∈ d := by
  induction d with
  | nil => simp [pyDictLookup]
  | cons e tl ih =>
    obtain ⟨a, b⟩ := e
    rw [List.map_cons, List.nodup_cons] at hd
    obtain ⟨ha, htl⟩ := hd
    by_cases hk : a = k
    · unfold pyDictLookup
      rw [List.find?_cons_of_pos _ (by simp [hk])]
      constructor
      · intro hv
        have hbv : b = v := by simpa using hv
        have hkv : (k, v) = (a, b) := by rw [hk, hbv]
        rw [hkv]
        exact List.mem_cons_self _ _
      · intro hv
        rcases List.mem_cons.mp hv with h1 | h1
        · have hbv : v = b := congrArg Prod.snd h1
          simp [hbv]
        · exfalso
          have hmem : k ∈ List.map Prod.fst tl := List.mem_map.mpr ⟨(k, v), h1, rfl⟩
          rw [hk] at ha
          exact ha hmem
    · unfold pyDictLookup
      rw [List.find?_cons_of_neg _ (by simp [hk])]
      rw [show ((tl.find? fun e => decide (e.1 = k)).map (fun e => e.2)) = pyDictLookup tl k
          from rfl]
      rw [ih htl]
      simp only [List.mem_cons, Prod.mk.injEq]
      constructor
      · exact Or.inr
      · intro hv
        rcases hv with ⟨hak, _⟩ | hv
        · exact absurd hak.symm hk
        · exact hv

lemma pyDictEq_true_iff {a b : List (PyPath × PyPath)}
    (ha : (a.map Prod.fst).Nodup) (hb : (b.map Prod.fst).Nodup) :
    pyDictEq a b = true ↔ ((∀ p ∈ a, p ∈ b) ∧ (∀ p ∈ b, p ∈ a)) := by
  unfold pyDictEq
  rw [Bool.and_eq_true, List.all_eq_true, List.all_eq_true]
  constructor
  · intro ⟨h1, h2⟩
    constructor
    · intro p hp
      have := of_decide_eq_true (h1 p hp)
      exact (pyDictLookup_iff_mem hb).mp this
    · intro p hp
      have := of_decide_eq_true (h2 p hp)
      exact (pyDictLookup_iff_mem ha).mp this
  · intro ⟨h1, h2⟩
    constructor
    · intro p hp
      exact decide_eq_true ((pyDictLookup_iff_mem hb).mpr (h1 p hp))
    · intro p hp
      exact decide_eq_true ((pyDictLookup_iff_mem ha).mpr (h2 p hp))

lemma newRootsList_eq_nil_iff {old_roots valid_roots : List (PyPath × PyPath)} :
    newRootsList old_roots valid_roots = [] ↔ ∀ p ∈ valid_roots, p ∈ old_roots := by
  unfold newRootsList
  rw [List.filter_eq_nil_iff]
  simp

lemma removedRootsList_eq_nil_iff {old_roots valid_roots : List (PyPath × PyPath)} :
    removedRootsList old_roots valid_roots = [] ↔ ∀ p ∈ old_roots, p ∈ valid_roots := by
  unfold removedRootsList
  rw [List.filter_eq_nil_iff]
  simp

/-- C7: in the polling loop an update message is sent exactly when the
fresh scan differs (as a dict) from the remembered snapshot, which in
turn happens exactly when the change set is non-empty; the remembered
snapshot is replaced by the fresh scan exactly when a message is sent,
and the message carries the two set differences. -/
theorem c7_poll_send_iff_changed (old_roots valid_roots : List (PyPath × PyPath))
    (ho : (old_roots.map Prod.fst).Nodup) (hv : (valid_roots.map Prod.fst).Nodup) :
    ((pollStep old_roots valid_roots).1 = none ↔ pyDictEq valid_roots old_roots = true)
    ∧ ((pollStep old_roots valid_roots).1 = none ↔
        (newRootsList old_roots valid_roots = []
         ∧ removedRootsList old_roots valid_roots = []))
    ∧ ((pollStep old_roots valid_roots).1 = none →
        (pollStep old_roots valid_roots).2 = old_roots)
    ∧ ((pollStep old_roots valid_roots).1 ≠ none →
        (pollStep old_roots valid_roots).2 = valid_roots
        ∧ (pollStep old_roots valid_roots).1
          = some ⟨newRootsList old_roots valid_roots,
                  removedRootsList old_roots valid_roots⟩) := by
  have key : pyDictEq valid_roots old_roots = true ↔
      (newRootsList old_roots valid_roots = []
       ∧ removedRootsList old_roots valid_roots = []) := by
    rw [pyDictEq_true_iff hv ho, newRootsList_eq_nil_iff, removedRootsList_eq_nil_iff]
  cases hb : pyDictEq valid_roots old_roots with
  | true =>
    refine ⟨by simp [pollStep, hb], ?_, by simp [pollStep, hb], by simp [pollStep, hb]⟩
    rw [← key, hb]
    simp [pollStep, hb]
  | false =>
    refine ⟨by simp [pollStep, hb], ?_, by simp [pollStep, hb], by simp [pollStep, hb]⟩
    rw [← key, hb]
    simp [pollStep, hb]

def c7Old : List (PyPath × PyPath) :=
  [(parsePath "/gcroots/a", parsePath "/nix/store/xxx-a")]

def c7New : List (PyPath × PyPath) :=
  [(parsePath "/gcroots/a", parsePath "/nix/store/yyy-a")]

theorem c7_poll_send_iff_changed_witness :
    ((pollStep c7Old c7New).1 ≠ none →
      (pollStep c7Old c7New).2 = c7New
      ∧ (pollStep c7Old c7New).1
        = some ⟨newRootsList c7Old c7New, removedRootsList c7Old c7New⟩)
    ∧ ((pollStep c7Old c7Old).1 = none → (pollStep c7Old c7Old).2 = c7Old) :=
  ⟨(c7_poll_send_iff_changed c7Old c7New (by decide) (by decide)).2.2.2,
   (c7_poll_send_iff_changed c7Old c7Old (by decide) (by decide)).2.2.1⟩

/-- C3: applying a change set to the previous snapshot — deleting the
`removed` pairs, then inserting the `added` pairs, both computed by full
pair equality as in the client — yields exactly the current snapshot. -/
theorem c3_diff_roundtrip (A B : List (PyPath × PyPath)) :
    (A.toFinset \ (removedRootsList A B).toFinset) ∪ (newRootsList A B).toFinset
      = B.toFinset := by
  ext kv
  simp only [Finset.mem_union, Finset.mem_sdiff, List.mem_toFinset,
    removedRootsList, newRootsList, List.mem_filter, Bool.not_eq_true',
    decide_eq_false_iff_not, decide_eq_true_eq]
  tauto

/-- C10: every mirror-entry name the listener derives from a guest-sent
root string is the 40-character lowercase-hex SHA-1 digest of that
string; as a path it is a single relative component (never `".."` or
absolute), so joining it under the per-guest mirror directory always
stays inside that directory, whatever root string the guest sends. -/
theorem c10_digest_names_single_component (s : String) (d : PyPath) :
    parsePath (sha1Hex s) = PyPath.mk "" [sha1Hex s]
    ∧ (sha1Hex s).length = 40
    ∧ (sha1Hex s).data.all (fun c => decide (c ∈ hexDigits)) = true
    ∧ pathJoin d (parsePath (sha1Hex s)) = PyPath.mk d.root (d.parts ++ [sha1Hex s])
    ∧ sha1Hex s ≠ ".."
    ∧ sha1Hex s ≠ "." := by
  refine ⟨parsePath_sha1Hex s, sha1Hex_length s, ?_, ?_, ?_, ?_⟩
  · simp only [List.all_eq_true, decide_eq_true_eq]
    exact fun c hc => sha1HexList_mem hc
  · rw [parsePath_sha1Hex s]
    unfold pathJoin
    simp
  · intro h
    have := sha1Hex_length s
    rw [h] at this
    exact absurd this (by decide)
  · intro h
    have := sha1Hex_length s
    rw [h] at this
    exact absurd this (by decide)


/-! ## The listener state machine -/

lemma any_filter_self (dir : MirrorDir) (r : PyPath) :
    (dir.filter (fun e => !(decide (e.1 = r)))).any (fun e => decide (e.1 = r)) = false := by
  rw [List.any_eq_false]
  intro e he
  rcases List.mem_filter.mp he with ⟨_, hcond⟩
  simp only [Bool.not_eq_true', decide_eq_false_iff_not] at hcond
  simp [hcond]

/-- C6: for an update message the listener unregisters the removed keys
strictly before registering the added pairs; for a message that changes a
root's target (one removed pair and one added pair for the same root
string) the resulting directory is the old one with every entry named
`digest(root)` removed plus one fresh entry of that name pointing at the
new target — so exactly one entry of that name remains. -/
theorem c6_update_unregister_then_register (store : PyPath) (dir : MirrorDir)
    (m : JMsg) (a told tnew : String)
    (hrem : jlookup m "removed" = some (JVal.jarr [(a, told)]))
    (hadd : jlookup m "added" = some (JVal.jarr [(a, tnew)]))
    (hok : is_relative_to (parsePath tnew) store = true) :
    listenerStep store dir (Frame.obj m)
      = ((dir.filter (fun e => !(decide (e.1 = parsePath (sha1Hex a))))) ++
          [(parsePath (sha1Hex a), parsePath tnew)], none)
    ∧ ((dir.filter (fun e => !(decide (e.1 = parsePath (sha1Hex a))))) ++
          [(parsePath (sha1Hex a), parsePath tnew)]).filter
            (fun e => decide (e.1 = parsePath (sha1Hex a)))
        = [(parsePath (sha1Hex a), parsePath tnew)] := by
  have hany := any_filter_self dir (parsePath (sha1Hex a))
  constructor
  · have hunreg : unregister_roots (parse_paths [(a, told)]) dir
        = dir.filter (fun e => !(decide (e.1 = parsePath (sha1Hex a)))) := rfl
    have hreg : register_roots store (parse_paths [(a, tnew)])
          (dir.filter (fun e => !(decide (e.1 = parsePath (sha1Hex a)))))
        = ((dir.filter (fun e => !(decide (e.1 = parsePath (sha1Hex a))))) ++
            [(parsePath (sha1Hex a), parsePath tnew)], none) := by
      simp [parse_paths, register_roots, hok, hany]
    simp only [listenerStep, hrem, hadd, hunreg, hreg]
  · rw [List.filter_append]
    have hnil : (dir.filter (fun e => !(decide (e.1 = parsePath (sha1Hex a))))).filter
        (fun e => decide (e.1 = parsePath (sha1Hex a))) = [] := by
      rw [List.filter_eq_nil_iff]
      intro e he
      rcases List.mem_filter.mp he with ⟨_, hcond⟩
      simp only [Bool.not_eq_true', decide_eq_false_iff_not] at hcond
      simp [hcond]
    rw [hnil]
    simp

def c6Msg : JMsg :=
  [("type", JVal.jstr "update"),
   ("added", JVal.jarr [("/gcroots/a", "/nix/store/yyy-a")]),
   ("removed", JVal.jarr [("/gcroots/a", "/nix/store/xxx-a")])]

def c6Dir : MirrorDir :=
  [(parsePath (sha1Hex "/gcroots/a"), parsePath "/nix/store/xxx-a")]

theorem c6_update_unregister_then_register_witness :
    listenerStep defaultStorePath c6Dir (Frame.obj c6Msg)
      = ((c6Dir.filter (fun e => !(decide (e.1 = parsePath (sha1Hex "/gcroots/a"))))) ++
          [(parsePath (sha1Hex "/gcroots/a"), parsePath "/nix/store/yyy-a")], none)
    ∧ ((c6Dir.filter (fun e => !(decide (e.1 = parsePath (sha1Hex "/gcroots/a"))))) ++
          [(parsePath (sha1Hex "/gcroots/a"), parsePath "/nix/store/yyy-a")]).filter
            (fun e => decide (e.1 = parsePath (sha1Hex "/gcroots/a")))
        = [(parsePath (sha1Hex "/gcroots/a"), parsePath "/nix/store/yyy-a")] :=
  c6_update_unregister_then_register defaultStorePath c6Dir c6Msg
    "/gcroots/a" "/nix/store/xxx-a" "/nix/store/yyy-a"
    (by decide) (by decide) (by decide)

/-- C8 counterexample: a first message whose kind tag is `"update"` but
which carries `id` and `roots` fields is accepted as a registration (the
listener initializes the mirror directory and exits the stream cleanly),
because the code never inspects the `"type"` field. -/
def c8Msg : JMsg :=
  [("type", JVal.jstr "update"),
   ("id", JVal.jstr "0123456789abcdef0123456789abcdef"),
   ("roots", JVal.jarr [])]

theorem c8_kind_tag_ignored_counterexample :
    listenerRun defaultStorePath (some [(parsePath "x", parsePath "y")])
        [Frame.obj c8Msg]
      = (some [], none)
    ∧ jlookup c8Msg "type" = some (JVal.jstr "update") := by
  constructor
  · decide
  · decide

/-- C8 amended: the listener accepts the first framed message as a
registration exactly when it carries an `id` field holding a valid
identity string and a `roots` field, irrespective of its kind tag; a
first message lacking the `id` or `roots` key or with an invalid or
non-string id (in particular every well-formed update message, which
has no `id`), an empty stream, or a line that is not valid JSON is a
fatal protocol error raised before any mirror state is changed; a first
message whose `roots` value is not a pair list is also fatal, but only
when the lazy pair parser is first pulled inside registration — after
the per-guest directory has been created and its pre-existing entries
cleared. -/
theorem c8_first_message_field_gate (store : PyPath) (pre : Option MirrorDir)
    (m : JMsg) (rest : List Frame) (v : JVal) :
    (listenerRun store pre [] = (pre, some LErr.stopIteration))
    ∧ (listenerRun store pre (Frame.junk :: rest) = (pre, some LErr.badJson))
    ∧ (∀ e, listenerInitParse m = Except.error e →
        listenerRun store pre (Frame.obj m :: rest) = (pre, some e))
    ∧ (jlookup m "id" = none →
        listenerInitParse m = Except.error (LErr.keyError "id"))
    ∧ (listenerInitParse m = Except.ok v →
        listenerRun store pre (Frame.obj m :: rest) = listenerRunAfterInit store v rest)
    ∧ (∀ s, listenerRunAfterInit store (JVal.jstr s) rest
        = (some [], some LErr.typeError))
    ∧ (listenerRunAfterInit store JVal.jother rest
        = (some [], some LErr.typeError)) := by
  refine ⟨rfl, rfl, ?_, ?_, ?_, fun s => rfl, rfl⟩
  · intro e he
    simp only [listenerRun, he]
  · intro hid
    simp only [listenerInitParse, hid]
  · intro hok
    simp only [listenerRun, hok]

def c8UpdMsg : JMsg :=
  [("type", JVal.jstr "update"),
   ("added", JVal.jarr []),
   ("removed", JVal.jarr [("/gcroots/a", "/nix/store/xxx-a")])]

def c8BadRootsMsg : JMsg :=
  [("type", JVal.jstr "init"),
   ("id", JVal.jstr "0123456789abcdef0123456789abcdef"),
   ("roots", JVal.jstr "xy")]

theorem c8_first_message_field_gate_witness :
    listenerRun defaultStorePath (some [(parsePath "x", parsePath "y")])
        [Frame.obj c8UpdMsg]
      = (some [(parsePath "x", parsePath "y")], some (LErr.keyError "id"))
    ∧ listenerInitParse c8UpdMsg = Except.error (LErr.keyError "id")
    ∧ listenerRun defaultStorePath (some [(parsePath "x", parsePath "y")])
        [Frame.obj c8BadRootsMsg]
      = (some [], some LErr.typeError) :=
  ⟨(c8_first_message_field_gate defaultStorePath
      (some [(parsePath "x", parsePath "y")]) c8UpdMsg [] JVal.jother).2.2.1
      (LErr.keyError "id") (by rfl),
   (c8_first_message_field_gate defaultStorePath
      (some [(parsePath "x", parsePath "y")]) c8UpdMsg [] JVal.jother).2.2.2.1 (by rfl),
   Eq.trans
     ((c8_first_message_field_gate defaultStorePath
        (some [(parsePath "x", parsePath "y")]) c8BadRootsMsg []
        (JVal.jstr "xy")).2.2.2.2.1 (by rfl))
     ((c8_first_message_field_gate defaultStorePath
        (some [(parsePath "x", parsePath "y")]) c8BadRootsMsg []
        (JVal.jstr "xy")).2.2.2.2.2.1 "xy")⟩

/-- C9: when the stream ends cleanly after a successful registration and
successfully processed updates, the listener exits normally and the final
mirror directory is exactly the one reached at end-of-stream — the code
after the loop performs no filesystem operation, so no entry is deleted
on close. -/
theorem c9_clean_close_preserves_entries (store : PyPath) (pre : Option MirrorDir)
    (m : JMsg) (rest : List Frame) (ps : List (String × String))
    (hinit : listenerInitParse m = Except.ok (JVal.jarr ps))
    (hreg : (register_roots store (parse_paths ps) []).2 = none)
    (hloop : (listenerLoop store (register_roots store (parse_paths ps) []).1 rest).2 = none) :
    listenerRun store pre (Frame.obj m :: rest)
      = (some ((listenerLoop store
          (register_roots store (parse_paths ps) []).1 rest).1), none)
    ∧ ∀ d : MirrorDir, shutdownHook d = d := by
  constructor
  · simp only [listenerRun, hinit, listenerRunAfterInit]
    cases hr : register_roots store (parse_paths ps) [] with
    | mk d1 e1 =>
      rw [hr] at hreg hloop
      simp only at hreg
      subst hreg
      cases hl : listenerLoop store d1 rest with
      | mk d2 e2 =>
        rw [hl] at hloop
        simp only at hloop
        subst hloop
        simp [shutdownHook, hr, hl]
  · intro d
    rfl

def c9Msg : JMsg :=
  [("type", JVal.jstr "init"),
   ("id", JVal.jstr "0123456789abcdef0123456789abcdef"),
   ("roots", JVal.jarr [("/gcroots/a", "/nix/store/xxx-a")])]

theorem c9_clean_close_preserves_entries_witness :
    listenerRun defaultStorePath none [Frame.obj c9Msg]
      = (some ((listenerLoop defaultStorePath
          (register_roots defaultStorePath
            (parse_paths [("/gcroots/a", "/nix/store/xxx-a")]) []).1 []).1), none)
    ∧ ∀ d : MirrorDir, shutdownHook d = d :=
  c9_clean_close_preserves_entries defaultStorePath none c9Msg []
    [("/gcroots/a", "/nix/store/xxx-a")] (by rfl) (by decide) (by decide)
